import Mathlib

/-!
Verification of the chat-screenshot structuring engine of
`backend/app/services/ocr_service.py` (class `DoubaoOCRService`).

The Python code is embedded shallowly:

* Python numbers (ints and floats) are modelled as rationals `ℚ`; decimal
  literals such as `0.35` become the exact rationals `35/100`.  All the
  concrete computations checked below stay far from the thresholds, so the
  double-rounding of the original floats cannot change any compared outcome,
  and the truncating index expressions `int(len(s) * r)` were checked by hand
  to agree with `⌊len * r⌋` at every list length that occurs in a concrete
  theorem of this file.
* Python's `\d`, `isdigit`, `isalpha` are modelled over their ASCII ranges
  (the OCR fragments the engine handles contain only ASCII digits).
* Python's stable `sorted(key=...)` is modelled by `List.insertionSort` over
  the corresponding total preorder (both are stable sorts, hence pointwise
  equal).
* dictionaries accumulated in place become records; the two bookkeeping
  fields `image_index` and `sort_y` that the Python code keeps implicitly
  (the grouping key of `blocks_by_image`, and `_sort_y` which is deleted just
  before returning) are retained on the `Message` record so that ordering
  facts can be stated.
-/

namespace VolcOcr

set_option allowUnsafeReducibility true in
attribute [semireducible] Rat.mul Rat.add Rat.inv Rat.sub

/-- Maximum of a list of rationals, `0` for the empty list — the source always
writes `max(...) if xs else 0`. -/
def listMax : List ℚ → ℚ
  | [] => 0
  | x :: xs => xs.foldl max x

/-- Minimum of a list of rationals, `0` for the empty list. -/
def listMin : List ℚ → ℚ
  | [] => 0
  | x :: xs => xs.foldl min x

/-- Ascending sort of rationals, embedding Python's `sorted(...)`. -/
def ascSort (l : List ℚ) : List ℚ :=
  List.insertionSort (· ≤ ·) l

/-- ASCII decimal digit, the model of Python's `\d` / `str.isdigit`. -/
def isDigCh (c : Char) : Bool :=
  decide (48 ≤ c.toNat ∧ c.toNat ≤ 57)

/-- Whitespace, the model of Python's `\s`. -/
def isWsCh (c : Char) : Bool :=
  c.isWhitespace

/-- Python's `str.strip()` on a character list. -/
def stripChars (l : List Char) : List Char :=
  ((l.dropWhile Char.isWhitespace).reverse.dropWhile Char.isWhitespace).reverse

/-- Python's `str.strip()` returning a string. -/
def stripTxt (s : String) : String :=
  String.mk (stripChars s.toList)

/-- Leading digits of a character list: their count and the rest. -/
def digSpan : List Char → ℕ × List Char
  | [] => (0, [])
  | c :: cs =>
    if isDigCh c then
      let p := digSpan cs
      (p.1 + 1, p.2)
    else (0, c :: cs)

/-- Leading whitespace of a character list: its count and the rest. -/
def wsSpan : List Char → ℕ × List Char
  | [] => (0, [])
  | c :: cs =>
    if isWsCh c then
      let p := wsSpan cs
      (p.1 + 1, p.2)
    else (0, c :: cs)

/-- Consume between `lo` and `hi` digits (greedily, as the regexes `\d{lo,hi}`
do in a context where the next token cannot match a digit). -/
def digTok (lo hi : ℕ) (cs : List Char) : Option (List Char) :=
  let p := digSpan cs
  if lo ≤ p.1 ∧ p.1 ≤ hi then some p.2 else none

/-- Consume one literal character. -/
def litTok (c : Char) : List Char → Option (List Char)
  | d :: ds => if d = c then some ds else none
  | [] => none

/-- Consume at least `lo` whitespace characters (`\s*` is `wsTok 0`, `\s+` is
`wsTok 1`). -/
def wsTok (lo : ℕ) (cs : List Char) : Option (List Char) :=
  let p := wsSpan cs
  if lo ≤ p.1 then some p.2 else none

/-- End-of-string anchor `$`. -/
def atEnd : Option (List Char) → Bool
  | some [] => true
  | _ => false

/-- Weekday characters of the `星期[一二三四五六日]` patterns. -/
def isWeekCh (c : Char) : Bool :=
  ['一', '二', '三', '四', '五', '六', '日'].contains c

/-- Consume the prefix `星期[一二三四五六日]`. -/
def weekTok : List Char → Option (List Char)
  | a :: b :: c :: r =>
    if a = '星' then
      if b = '期' then
        if isWeekCh c then some r else none
      else none
    else none
  | _ => none

/-- Colon class `[：:]` (full-width or ASCII colon). -/
def isColCh (c : Char) : Bool :=
  decide (c = ':' ∨ c = '：')

/-- Consume one `[：:]`. -/
def colTok : List Char → Option (List Char)
  | d :: ds => if isColCh d then some ds else none
  | [] => none

/-- Pattern `^\d{1,2}:\d{2}$` (also its duplicate `^[0-9]{1,2}:[0-9]{2}$`). -/
def patClock (s : List Char) : Bool :=
  atEnd ((digTok 1 2 s).bind (litTok ':') |>.bind (digTok 2 2))

/-- Pattern `^\d{1,2}:\d{2}:\d{2}$`. -/
def patClockSec (s : List Char) : Bool :=
  atEnd ((digTok 1 2 s).bind (litTok ':') |>.bind (digTok 2 2)
    |>.bind (litTok ':') |>.bind (digTok 2 2))

/-- Pattern `^\d{1,2}月\d{1,2}日$`. -/
def patMonthDay (s : List Char) : Bool :=
  atEnd ((digTok 1 2 s).bind (litTok '月') |>.bind (digTok 1 2) |>.bind (litTok '日'))

/-- Pattern `^\d{4}-\d{2}-\d{2}$`. -/
def patIsoDate (s : List Char) : Bool :=
  atEnd ((digTok 4 4 s).bind (litTok '-') |>.bind (digTok 2 2)
    |>.bind (litTok '-') |>.bind (digTok 2 2))

/-- Pattern `^\d{4}/\d{1,2}/\d{1,2}$`. -/
def patSlashDate (s : List Char) : Bool :=
  atEnd ((digTok 4 4 s).bind (litTok '/') |>.bind (digTok 1 2)
    |>.bind (litTok '/') |>.bind (digTok 1 2))

/-- Pattern `^\d{4}年\d{1,2}月\d{1,2}日$`. -/
def patCnDate (s : List Char) : Bool :=
  atEnd ((digTok 4 4 s).bind (litTok '年') |>.bind (digTok 1 2)
    |>.bind (litTok '月') |>.bind (digTok 1 2) |>.bind (litTok '日'))

/-- Pattern `^星期[一二三四五六日]$`. -/
def patWeek (s : List Char) : Bool :=
  atEnd (weekTok s)

/-- Pattern `^\d{1,2}月\d{1,2}日\s*\d{1,2}:\d{2}$`. -/
def patMonthDayClock (s : List Char) : Bool :=
  atEnd ((digTok 1 2 s).bind (litTok '月') |>.bind (digTok 1 2)
    |>.bind (litTok '日') |>.bind (wsTok 0) |>.bind (digTok 1 2)
    |>.bind (litTok ':') |>.bind (digTok 2 2))

/-- Pattern `^\d{4}-\d{2}-\d{2}\s+\d{1,2}:\d{2}$`. -/
def patIsoDateClock (s : List Char) : Bool :=
  atEnd ((digTok 4 4 s).bind (litTok '-') |>.bind (digTok 2 2)
    |>.bind (litTok '-') |>.bind (digTok 2 2) |>.bind (wsTok 1)
    |>.bind (digTok 1 2) |>.bind (litTok ':') |>.bind (digTok 2 2))

/-- Pattern `^星期[一二三四五六日]\d{1,2}[：:]\d{2}$`. -/
def patWeekClock (s : List Char) : Bool :=
  atEnd ((weekTok s).bind (digTok 1 2) |>.bind colTok |>.bind (digTok 2 2))

/-- Pattern `^星期[一二三四五六日]\s*\d{1,2}[：:]\d{2}$`. -/
def patWeekWsClock (s : List Char) : Bool :=
  atEnd ((weekTok s).bind (wsTok 0) |>.bind (digTok 1 2)
    |>.bind colTok |>.bind (digTok 2 2))

/-- Pattern `^星期[一二三四五六日]\d{1,2}[：:]\d{2}:\d{2}$`. -/
def patWeekClockSec (s : List Char) : Bool :=
  atEnd ((weekTok s).bind (digTok 1 2) |>.bind colTok |>.bind (digTok 2 2)
    |>.bind (litTok ':') |>.bind (digTok 2 2))

/-- The `system_ui_patterns` of `_filter_noise_text`: filtered with no
position test. -/
def isSystemUiTxt (s : List Char) : Bool :=
  patWeekClock s || patWeekWsClock s || patWeekClockSec s

/-- The live `time_patterns` list of `_filter_noise_text` (the first
`time_patterns` assignment in the source is shadowed before use and the
duplicate `^[0-9]{1,2}:[0-9]{2}$` entry matches exactly as `patClock`). -/
def isTimestampTxt (s : List Char) : Bool :=
  patClock s || patClockSec s || patMonthDay s || patIsoDate s ||
    patSlashDate s || patCnDate s || patWeek s || patMonthDayClock s ||
    patIsoDateClock s

/-- Position context handed to `_filter_noise_text`: the fragment's
`center_x` plus the `image_width` / `image_min_x` the caller merges into the
block dict. -/
structure NoiseCtx where
  center_x : ℚ
  image_min_x : ℚ
  image_width : ℚ
deriving DecidableEq

/-- Embedding of `_filter_noise_text(text, block)` with a position context
present (the pipeline always passes one): `true` means the fragment is noise
and is dropped. -/
def filterNoiseText (text : String) (ctx : NoiseCtx) : Bool :=
  if stripChars text.toList = [] then true
  else
    let t := stripChars text.toList
    if isSystemUiTxt t then true
    else if ¬ isTimestampTxt t then false
    else if 0 < ctx.image_width then
      let imageCenterAbs := ctx.image_min_x + ctx.image_width / 2
      let centerRange := ctx.image_width * (35 / 100)
      decide (|ctx.center_x - imageCenterAbs| ≤ centerRange)
    else false

/-- One OCR text fragment as `_extract_volc_blocks` builds it: text plus
bounding box, with the derived fields the Python dict carries. -/
structure Block where
  text : String
  x : ℚ
  y : ℚ
  width : ℚ
  height : ℚ
  right : ℚ
  bottom : ℚ
  center_x : ℚ
  center_y : ℚ
  image_index : ℕ
  confidence : ℚ
deriving DecidableEq

/-- A rectangle of the provider's `line_rects` (integer absolute
coordinates). -/
structure Rect where
  x : ℤ
  y : ℤ
  width : ℤ
  height : ℤ
deriving DecidableEq

/-- Geometry of one recognized line as `_extract_volc_blocks` reads it: the
rectangle when the provider sent a usable dict (`none` models a missing or
empty rect, which falls back to the polygon). -/
def lineGeom (rect : Option Rect) (poly : List (ℤ × ℤ)) : Option (ℚ × ℚ × ℚ × ℚ) :=
  match rect with
  | some r => some ((r.x : ℚ), (r.y : ℚ), (r.width : ℚ), (r.height : ℚ))
  | none =>
    if 4 ≤ poly.length then
      let xs : List ℚ := poly.map (fun p => (p.1 : ℚ))
      let ys : List ℚ := poly.map (fun p => (p.2 : ℚ))
      let x := listMin xs
      let y := listMin ys
      some (x, y, listMax xs - x, listMax ys - y)
    else none

/-- One iteration of the `_extract_volc_blocks` loop: keep a nonempty line
whose geometry is valid (positive width and height) and build the block
record with its derived fields. -/
def extractOneLine (text : String) (rect : Option Rect) (prob : ℚ)
    (poly : List (ℤ × ℤ)) (imageIndex : ℕ) : Option Block :=
  if stripChars text.toList = [] then none
  else
    match lineGeom rect poly with
    | none => none
    | some (x, y, w, h) =>
      if w ≤ 0 ∨ h ≤ 0 then none
      else
        some {
          text := stripTxt text
          x := x, y := y, width := w, height := h
          right := x + w, bottom := y + h
          center_x := x + w / 2, center_y := y + h / 2
          image_index := imageIndex
          confidence := prob }

/-- The `for i, text in enumerate(line_texts)` loop, carrying the running
index `i` for the parallel-array accesses with their defaults. -/
def extractLinesFrom (lineRects : List (Option Rect)) (lineProbs : List ℚ)
    (polys : List (List (ℤ × ℤ))) (imageIndex : ℕ) : ℕ → List String → List Block
  | _, [] => []
  | i, text :: rest =>
    (extractOneLine text (lineRects.getD i none) (lineProbs.getD i (9 / 10))
        (polys.getD i []) imageIndex).toList ++
      extractLinesFrom lineRects lineProbs polys imageIndex (i + 1) rest

/-- Embedding of `_extract_volc_blocks` (the `chars` argument is unused by
the source, and the `image_width`/`image_height` arguments only feed
logging). -/
def extractVolcBlocks (lineTexts : List String) (lineRects : List (Option Rect))
    (lineProbs : List ℚ) (polys : List (List (ℤ × ℤ))) (imageIndex : ℕ) :
    List Block :=
  extractLinesFrom lineRects lineProbs polys imageIndex 0 lineTexts

/-- Block order used by every `sorted(blocks, key=lambda b: (b["y"], b["x"]))`
call of the source. -/
def blockLE (a b : Block) : Prop :=
  a.y < b.y ∨ (a.y = b.y ∧ a.x ≤ b.x)

instance : DecidableRel blockLE := fun a b => by
  unfold blockLE; infer_instance

/-- Stable sort of blocks by `(y, x)`. -/
def sortYX (blocks : List Block) : List Block :=
  List.insertionSort blockLE blocks

/-- One assignment step of `_kmeans_split_1d`: each point goes to the nearer
center, ties to the first. -/
def kmeansAssign (c1 c2 : ℚ) (points : List ℚ) : List ℕ :=
  points.map fun p => if |p - c1| ≤ |p - c2| then 0 else 1

/-- Mean of the points carrying a given label, or the old center when the
group is empty. -/
def kmeansCenter (points : List ℚ) (labels : List ℕ) (l : ℕ) (old : ℚ) : ℚ :=
  let g := ((points.zip labels).filter fun q => q.2 = l).map Prod.fst
  if g = [] then old else g.sum / g.length

/-- The `for _ in range(10)` loop of `_kmeans_split_1d`: assign, recompute the
centers, stop early when no label changed (the source breaks after the center
update). -/
def kmeansLoop : ℕ → List ℚ → List ℕ → ℚ → ℚ → List ℕ × ℚ × ℚ
  | 0, _, labels, c1, c2 => (labels, c1, c2)
  | fuel + 1, points, labels, c1, c2 =>
    let newLabels := kmeansAssign c1 c2 points
    let c1' := kmeansCenter points newLabels 0 c1
    let c2' := kmeansCenter points newLabels 1 c2
    if newLabels = labels then (newLabels, c1', c2')
    else kmeansLoop fuel points newLabels c1' c2'

/-- Embedding of `_kmeans_split_1d(points, min_x_val, width)`: the split
threshold and the (left = 0) labels. -/
def kmeansSplit1d (points : List ℚ) (minXVal width : ℚ) : ℚ × List ℕ :=
  if points = [] then (minXVal + width / 2, [])
  else
    let r := kmeansLoop 10 points (List.replicate points.length 0)
      (minXVal + width * (1 / 4)) (minXVal + width * (3 / 4))
    let labels := r.1
    let c1 := r.2.1
    let c2 := r.2.2
    if c1 > c2 then ((c2 + c1) / 2, labels.map (1 - ·))
    else ((c1 + c2) / 2, labels)

/-- Steps 2–4 of `_process_volc_ocr_blocks` on the filtered, y-sorted blocks:
1D k-means over `center_x` splits the two conversation sides, with the
image-center fallback when one group comes out empty. -/
def sideSplit (blocks : List Block) : List Block × List Block :=
  let maxX := listMax (blocks.map (·.right))
  let minX := listMin (blocks.map (·.x))
  let imageWidth := maxX - minX
  let labels := (kmeansSplit1d (blocks.map (·.center_x)) minX imageWidth).2
  let labels := if labels = [] then List.replicate blocks.length 0 else labels
  let leftBlocks := ((blocks.zip labels).filter fun q => q.2 = 0).map Prod.fst
  let rightBlocks := ((blocks.zip labels).filter fun q => q.2 ≠ 0).map Prod.fst
  if leftBlocks = [] ∨ rightBlocks = [] then
    let thr := minX + imageWidth / 2
    (blocks.filter fun b => b.center_x < thr, blocks.filter fun b => ¬ b.center_x < thr)
  else (leftBlocks, rightBlocks)

/-- Lower-casing of ASCII letters, the model of Python's `str.lower()` on the
texts at hand (CJK characters are fixed by `lower()`). -/
def asciiLower (c : Char) : Char :=
  if 65 ≤ c.toNat ∧ c.toNat ≤ 90 then Char.ofNat (c.toNat + 32) else c

/-- Does `pat` start `s`? -/
def seqPre : List Char → List Char → Bool
  | [], _ => true
  | _ :: _, [] => false
  | c :: cs, d :: ds => c = d && seqPre cs ds

/-- Does `pat` occur inside `s` (Python's `pat in s`)? -/
def seqSub (pat : List Char) : List Char → Bool
  | [] => seqPre pat []
  | d :: ds => seqPre pat (d :: ds) || seqSub pat ds

/-- The code keywords of `_is_code_like` (each searched inside the lowered
text). -/
def codeKeywords : List (List Char) :=
  ["def ", "class ", "function ", "var ", "let ", "const ", "if ", "for ",
    "while ", "return ", "import ", "from ", "public ", "private ",
    "protected ", "static ", "=>"].map String.toList

/-- A code fence, three backticks. -/
def fenceChars : List Char :=
  [Char.ofNat 96, Char.ofNat 96, Char.ofNat 96]

/-- The symbol set of `_is_code_like` (braces, backtick and quotes spelled by
code point). -/
def codeSymbols : List Char :=
  [Char.ofNat 123, Char.ofNat 125, '[', ']', '(', ')', ';', ',', ':', '=',
    '<', '>', '+', '-', '*', '/', '#', Char.ofNat 96, '$', Char.ofNat 34,
    Char.ofNat 39, '\\', '|', '&', '%', '.', '_']

/-- Count of leading blanks or tabs, Python's
`len(text) - len(text.lstrip(" \t"))`. -/
def indentCount : List Char → ℕ
  | [] => 0
  | c :: cs => if c = ' ' ∨ c = '\t' then indentCount cs + 1 else 0

/-- Embedding of the `_is_code_like` heuristic inside `_merge_volc_bubbles`:
keywords, code fences, indentation, or a high symbol / digit density. -/
def isCodeLike (text : String) : Bool :=
  let tl := text.toList
  if tl = [] then false
  else
    let s := stripChars tl
    if s = [] then false
    else
      let lower := s.map asciiLower
      if codeKeywords.any (fun k => seqSub k lower) then true
      else if seqPre fenceChars s || seqPre fenceChars.reverse s.reverse then true
      else if 2 ≤ indentCount tl then true
      else
        let symCnt := s.countP (fun c => codeSymbols.contains c)
        let digCnt := s.countP (fun c => isDigCh c)
        let den : ℚ := (max 1 s.length : ℕ)
        decide ((15 / 100 : ℚ) ≤ (symCnt : ℚ) / den ∨ (4 / 10 : ℚ) ≤ (digCnt : ℚ) / den)

/-- One chat bubble as `_merge_volc_bubbles` accumulates it.  The
single-block early-return path of the source builds a dict without the
`image_height` / `is_code` / `code_hits` keys, which nothing downstream
reads; `singleBubble` fills them with `0` / `false` / `0`. -/
structure Bubble where
  text : String
  top : ℚ
  bottom : ℚ
  left : ℚ
  right : ℚ
  blocks : List Block
  anchor_left : ℚ
  anchor_right : ℚ
  anchor_width : ℚ
  image_height : ℚ
  is_code : Bool
  code_hits : ℕ
deriving DecidableEq

/-- The bubble of the `len(blocks) == 1` early return. -/
def singleBubble (b : Block) : Bubble :=
  ⟨b.text, b.y, b.bottom, b.x, b.right, [b], b.x, b.right,
    max 1 (b.right - b.x), 0, false, 0⟩

/-- A fresh bubble started at `b`, with the anchor fixed at creation. -/
def newBubble (imageHeight : ℚ) (b : Block) : Bubble :=
  ⟨b.text, b.y, b.bottom, b.x, b.right, [b], b.x, b.right,
    max 1 (b.right - b.x), imageHeight, isCodeLike b.text,
    if isCodeLike b.text then 1 else 0⟩

/-- The characteristic image height of `_merge_volc_bubbles`: the blocks'
vertical extent clamped to at least 100 (the `if all_bottoms and all_tops
else 1` guard also lands on 100 after the clamp). -/
def imageHeightOf (bs : List Block) : ℚ :=
  max (listMax (bs.map (·.bottom)) - listMin (bs.map (·.y))) 100

/-- Average block height, `20` for no blocks as in the source's guard. -/
def avgHeightOf (bs : List Block) : ℚ :=
  if bs = [] then 20 else (bs.map (·.height)).sum / (bs.length : ℚ)

/-- The gap-ratio samples: each nonnegative vertical gap between consecutive
sorted blocks divided by the image height. -/
def gapSamplesOf (bs : List Block) (ih : ℚ) : List ℚ :=
  (bs.zip bs.tail).filterMap fun p =>
    let g := p.2.y - p.1.bottom
    if 0 ≤ g then some (if 0 < ih then g / ih else 0) else none

/-- Truncation of a nonnegative rational to a natural number, Python's
`int(...)` on the nonnegative values at hand. -/
def ratFloorNat (p : ℚ) : ℕ :=
  (p.num / (p.den : ℤ)).toNat

/-- The quantile expression `s[min(len(s) - 1, max(0, int(len(s) * r)))]` of
`_merge_volc_bubbles` on the ascending list `s`. -/
def quantAt (s : List ℚ) (r : ℚ) : ℚ :=
  s.getD (min (s.length - 1) (ratFloorNat ((s.length : ℚ) * r))) 0

/-- The per-image constants of one `_merge_volc_bubbles` run. -/
structure MergeCtx where
  side : String
  image_height : ℚ
  avg_height : ℚ
  line_break_thr : ℚ
  message_gap_thr : ℚ
  typical_small : ℚ
deriving DecidableEq

/-- The adaptive thresholds of `_merge_volc_bubbles`: quantiles of the
gap-ratio distribution when samples exist, height-derived defaults
otherwise. -/
def mergeCtxOf (bs : List Block) (side : String) : MergeCtx :=
  let ih := imageHeightOf bs
  let avg := avgHeightOf bs
  let ratios := gapSamplesOf bs ih
  if ratios = [] then
    let lb := if 0 < ih then (avg * (13 / 10)) / ih else 2 / 100
    ⟨side, ih, avg, lb, lb * 2, if 0 < ih then avg / ih else 15 / 1000⟩
  else
    let s := ascSort ratios
    let small := quantAt s (3 / 10)
    let large := quantAt s (7 / 10)
    let lb := max (small * (13 / 10)) (if 0 < ih then (avg * (9 / 10)) / ih else small)
    ⟨side, ih, avg, lb, max (large * (9 / 10)) (lb * (16 / 10)), small⟩

/-- The gap ratio of a candidate block against the current bubble. -/
def gapRelOf (ctx : MergeCtx) (cur : Bubble) (b : Block) : ℚ :=
  if 0 < ctx.image_height then (b.y - cur.bottom) / ctx.image_height else 0

/-- The clamp `anchor_width = max(1, ...)` read back inside the loop. -/
def anchorWidthClamped (cur : Bubble) : ℚ :=
  max 1 cur.anchor_width

/-- The clamp `col_width = max(8, anchor_width)`, an alignment-tolerance
denominator. -/
def colWidthOf (cur : Bubble) : ℚ :=
  max 8 (anchorWidthClamped cur)

/-- Anchor alignment: the distance of the block's edge to the bubble's fixed
anchor edge, against the tolerance `max(6, min(18, col_width * 0.18))`. -/
def xAlignedB (side : String) (cur : Bubble) (b : Block) : Bool :=
  let d := if side = "left" then |b.x - cur.anchor_left| else |b.right - cur.anchor_right|
  decide (d ≤ max 6 (min 18 (colWidthOf cur * (18 / 100))))

/-- Width similarity of the bubble's box and the block's box. -/
def widthSimOf (cur : Bubble) (b : Block) : ℚ :=
  let cw := max 1 (cur.right - cur.left)
  let bw := max 1 (b.right - b.x)
  min cw bw / max cw bw

/-- The gap ratios already inside the current bubble (no sign filter in the
source here). -/
def internalRels (ih : ℚ) (blocks : List Block) : List ℚ :=
  (blocks.zip blocks.tail).map fun p =>
    if 0 < ih then (p.2.y - p.1.bottom) / ih else 0

/-- Python's `sorted(l)[len(l) // 2]`. -/
def medianOf (l : List ℚ) : ℚ :=
  (ascSort l).getD (l.length / 2) 0

/-- The merge decision of `_merge_volc_bubbles` for one candidate block
against the current bubble: strategies 1–3b, the code mode (strategy 4), and
the final guard that refuses any merge whose gap ratio reaches the
message-gap threshold.  (The `big_gap_cutoff` the source computes alongside
is never read afterwards and is omitted.) -/
def shouldMergeB (ctx : MergeCtx) (cur : Bubble) (b : Block) : Bool :=
  let gapRel := gapRelOf ctx cur b
  let xAlign := xAlignedB ctx.side cur b
  let wSim := widthSimOf cur b
  let s12 := (decide (gapRel ≤ ctx.line_break_thr) && xAlign)
    || decide (gapRel ≤ ctx.typical_small * (15 / 10))
  let inner := internalRels ctx.image_height cur.blocks
  let s3 := decide (2 ≤ cur.blocks.length) && decide (inner ≠ []) &&
    decide (gapRel ≤ medianOf inner * (22 / 10)) && (xAlign || decide ((75 / 100 : ℚ) ≤ wSim))
  let m2 := s12 || s3
    || (decide ((8 / 10 : ℚ) ≤ wSim) && xAlign && decide (gapRel ≤ ctx.message_gap_thr))
  let nextCode := isCodeLike b.text
  let lastTxt := ((cur.blocks.getLast?).map Block.text).getD ""
  let inCode := cur.is_code || (nextCode && isCodeLike lastTxt)
  let m3 := m2 || (inCode && xAlign)
  if m3 && decide (ctx.message_gap_thr ≤ gapRel) then false else m3

/-- Merging a block into the current bubble: text joined with a newline, box
expanded (the top and the anchor never move), code hits updated and the code
mode locked at two hits. -/
def mergeInto (cur : Bubble) (b : Block) : Bubble :=
  let hits := if isCodeLike b.text then cur.code_hits + 1 else cur.code_hits
  { cur with
    text := cur.text ++ "\n" ++ b.text
    bottom := max cur.bottom b.bottom
    left := min cur.left b.x
    right := max cur.right b.right
    blocks := cur.blocks ++ [b]
    code_hits := hits
    is_code := if 2 ≤ hits then true else cur.is_code }

/-- The accumulation loop of `_merge_volc_bubbles`: the finished bubbles, the
current one, and the remaining blocks. -/
def mergeLoop (ctx : MergeCtx) : List Block → List Bubble → Bubble → List Bubble
  | [], acc, cur => acc ++ [cur]
  | b :: bs, acc, cur =>
    if shouldMergeB ctx cur b then mergeLoop ctx bs acc (mergeInto cur b)
    else mergeLoop ctx bs (acc ++ [cur]) (newBubble ctx.image_height b)

/-- Embedding of `_merge_volc_bubbles(blocks, speaker_name, side)` (the
`speaker_name` argument only feeds logging). -/
def mergeVolcBubbles (blocks : List Block) (speakerName side : String) : List Bubble :=
  match blocks with
  | [] => []
  | [b] => [singleBubble b]
  | _ =>
    let bs := sortYX blocks
    let ctx := mergeCtxOf bs side
    match bs with
    | [] => []
    | b0 :: rest => mergeLoop ctx rest [] (newBubble ctx.image_height b0)

/-- One output message of `_process_volc_ocr_blocks` /
`_extract_with_volc_ocr`.  `sort_y` is the `_sort_y` key the source deletes
just before returning, and `image_index` the `blocks_by_image` key under
which the message was produced; both are kept as record fields so ordering
facts can be stated about them. -/
structure Message where
  speaker_name : String
  speaker_side : String
  text : String
  block_index : ℕ
  sort_y : ℚ
  image_index : ℕ
deriving DecidableEq

/-- The message sort key of step 6 of `_process_volc_ocr_blocks`
(`m.get("_sort_y", 0)`). -/
def msgLEy (a b : Message) : Prop :=
  a.sort_y ≤ b.sort_y

instance : DecidableRel msgLEy := fun a b => by
  unfold msgLEy; infer_instance

instance : IsTotal Message msgLEy :=
  ⟨fun _ _ => le_total _ _⟩

instance : IsTrans Message msgLEy :=
  ⟨fun _ _ _ h1 h2 => le_trans h1 h2⟩

/-- The batch order: image index first, then the vertical position recorded
in `sort_y`. -/
def msgLE (a b : Message) : Prop :=
  a.image_index < b.image_index ∨ (a.image_index = b.image_index ∧ a.sort_y ≤ b.sort_y)

/-- Python's `"sep".join(...)`. -/
def joinSep (sep : String) : List String → String
  | [] => ""
  | [s] => s
  | s :: rest => s ++ sep ++ joinSep sep rest

/-- Bubbles of one side turned into messages, appended after `start` earlier
messages: empty texts are skipped, `_sort_y` is the bubble top (`0` for a
blockless bubble, per the source's guard). -/
def msgsOfBubbles (speaker side : String) (imgIdx : ℕ) (start : ℕ) :
    List Bubble → List Message
  | [] => []
  | bub :: rest =>
    let t := stripTxt bub.text
    if t = "" then msgsOfBubbles speaker side imgIdx start rest
    else
      ⟨speaker, side, t, start + 1, if bub.blocks ≠ [] then bub.top else 0, imgIdx⟩ ::
        msgsOfBubbles speaker side imgIdx (start + 1) rest

/-- Renumbering `block_index` as `start + 1, start + 2, …` down a list, both
the step-6 reindexing of `_process_volc_ocr_blocks` (with `start = 0`) and
the `m["block_index"] = len(messages) + 1` re-numbering of the batch
append. -/
def retagFrom (start : ℕ) : List Message → List Message
  | [] => []
  | m :: rest => { m with block_index := start + 1 } :: retagFrom (start + 1) rest

/-- Step 7 of `_process_volc_ocr_blocks`: the texts joined by blank lines. -/
def joinedTextOf (msgs : List Message) : String :=
  joinSep "\n\n" ((msgs.filter fun m => m.text ≠ "").map fun m => stripTxt m.text)

/-- Embedding of `_process_volc_ocr_blocks(blocks)` for the image whose
`blocks_by_image` key is `imgIdx` (the source does not receive the key; it is
threaded here only to fill the bookkeeping `image_index` field). -/
def processImage (imgIdx : ℕ) (blocks : List Block) : List Message × String :=
  if blocks = [] then ([], "")
  else
    let minX0 := listMin (blocks.map (·.x))
    let w0 := listMax (blocks.map (·.right)) - minX0
    let filtered := blocks.filter fun b => ¬ filterNoiseText b.text ⟨b.center_x, minX0, w0⟩
    if filtered = [] then ([], "")
    else
      let bs := sortYX filtered
      let sides := sideSplit bs
      let lbub := mergeVolcBubbles (sortYX sides.1) "对方" "left"
      let rbub := mergeVolcBubbles (sortYX sides.2) "我" "right"
      let lm := msgsOfBubbles "对方" "left" imgIdx 0 lbub
      let pre := lm ++ msgsOfBubbles "我" "right" imgIdx lm.length rbub
      let sortedMsgs := List.insertionSort msgLEy pre
      let final := retagFrom 0 sortedMsgs
      (final, joinedTextOf final)

/-- The provider payload of one successful OCR call: the parallel arrays the
engine reads from `result["data"]`.  An empty `line_texts` also models the
source's empty-`data` case — both are skipped with no failure recorded. -/
structure VolcData where
  line_texts : List String
  line_rects : List (Option Rect)
  line_probs : List ℚ
  polys : List (List (ℤ × ℤ))
deriving DecidableEq

/-- One image's OCR outcome inside `_extract_with_volc_ocr`: an exception
from `asyncio.gather` (or a non-dict result) versus a payload. -/
inductive Outcome where
  | err : Outcome
  | ok : VolcData → Outcome
deriving DecidableEq

/-- The `failed_images` accumulation from position `i` on: 1-based indices of
the outcomes that raised. -/
def errIndicesFrom (i : ℕ) : List Outcome → List ℕ
  | [] => []
  | .err :: rest => (i + 1) :: errIndicesFrom (i + 1) rest
  | .ok _ :: rest => errIndicesFrom (i + 1) rest

/-- The `failed_images` list of `_extract_with_volc_ocr`. -/
def errIndices (outs : List Outcome) : List ℕ :=
  errIndicesFrom 0 outs

/-- The `all_blocks` accumulation from position `i` on. -/
def allBlocksFrom (i : ℕ) : List Outcome → List Block
  | [] => []
  | .err :: rest => allBlocksFrom (i + 1) rest
  | .ok d :: rest =>
    extractVolcBlocks d.line_texts d.line_rects d.line_probs d.polys (i + 1) ++
      allBlocksFrom (i + 1) rest

/-- The `all_blocks` list of `_extract_with_volc_ocr`. -/
def allBlocksOf (outs : List Outcome) : List Block :=
  allBlocksFrom 0 outs

/-- Python's `sorted(blocks_by_image.keys())`: the distinct image indices in
ascending order. -/
def imageKeys (blocks : List Block) : List ℕ :=
  List.insertionSort (· ≤ ·) (blocks.map (·.image_index)).dedup

/-- Concatenation of the per-image message lists in key order with the
running `block_index` re-numbering. -/
def appendTagged (start : ℕ) : List (List Message) → List Message
  | [] => []
  | l :: ls => retagFrom start l ++ appendTagged (start + l.length) ls

/-- Step 3 of `_extract_with_volc_ocr`: the global message list. -/
def batchMessages (blocks : List Block) : List Message :=
  appendTagged 0 ((imageKeys blocks).map fun k =>
    (processImage k (blocks.filter fun b => b.image_index = k)).1)

/-- The `combined_texts` join of `_extract_with_volc_ocr`. -/
def batchText (blocks : List Block) : String :=
  joinSep "\n\n" (((imageKeys blocks).map fun k =>
    (processImage k (blocks.filter fun b => b.image_index = k)).2).filter fun t => t ≠ "")

/-- A CJK codepoint, Python's `'一' <= char <= '鿿'` (19968–40959). -/
def isCJKCh (c : Char) : Bool :=
  decide (19968 ≤ c.toNat ∧ c.toNat ≤ 40959)

/-- An ASCII letter, Python's `char.isascii() and char.isalpha()`. -/
def isAsciiAlphaCh (c : Char) : Bool :=
  decide ((65 ≤ c.toNat ∧ c.toNat ≤ 90) ∨ (97 ≤ c.toNat ∧ c.toNat ≤ 122))

/-- Does some message text contain a CJK character (`"chinese"` goes into
`detected_languages`)? -/
def detectedChinese (msgs : List Message) : Bool :=
  msgs.any fun m => m.text.toList.any isCJKCh

/-- Does some message text contain an ASCII letter (`"english"` goes into
`detected_languages`)? -/
def detectedEnglish (msgs : List Message) : Bool :=
  msgs.any fun m => m.text.toList.any isAsciiAlphaCh

/-- The language guess of `_extract_with_volc_ocr`: `"mixed"` when the set
`detected_languages` has both members, else `"中文"` when it holds
`"chinese"`, else `"英文"`. -/
def languageOf (msgs : List Message) : String :=
  if detectedChinese msgs && detectedEnglish msgs then "mixed"
  else if detectedChinese msgs then "中文" else "英文"

/-- The externally visible batch result (`failed_images` is kept as the bare
list; the source stores `failed_images if failed_images else None` in the
metadata). -/
structure BatchResult where
  text : String
  messages : List Message
  participants : List String
  failed_images : List ℕ
  language : String
deriving DecidableEq

/-- Embedding of `_extract_with_volc_ocr` after the provider calls: collect
failures and blocks, return the empty result when no block survived, else
process image by image in key order. -/
def volcProcess (outs : List Outcome) : BatchResult :=
  let failed := errIndices outs
  let blocks := allBlocksOf outs
  if blocks = [] then ⟨"", [], [], failed, "mixed"⟩
  else
    let msgs := batchMessages blocks
    ⟨batchText blocks, msgs, ["我", "对方"], failed, languageOf msgs⟩

/-- The batch driver seen from the provider: `_extract_with_volc_ocr` issues
exactly one `_volc_ocr_recognition_raw` call per image (`asyncio.gather` over
one task per image, no retry loop), so only attempt `0` of any provider
behaviour is ever consumed. -/
def volcBatchWith (provider : ℕ → ℕ → Outcome) (n : ℕ) : BatchResult :=
  volcProcess ((List.range n).map fun i => provider i 0)

/-- One HTTP attempt's outcome inside `_extract_with_doubao_ocr`'s retry
loop: success, a retryable failure (network error or 5xx), or a 4xx client
error that is re-raised at once. -/
inductive HttpOutcome where
  | success : HttpOutcome
  | transientErr : HttpOutcome
  | clientErr : HttpOutcome
deriving DecidableEq

/-- The `for attempt in range(1, 4)` retry loop of `_extract_with_doubao_ocr`
on the whole-batch HTTP post: result is (final attempt number, the
`asyncio.sleep` durations taken, success flag).  The sleep before retry
`attempt + 1` is `0.6 * attempt` seconds — no jitter. -/
def doubaoGo (responses : ℕ → HttpOutcome) : ℕ → ℕ → ℕ × List ℚ × Bool
  | 0, attempt => (attempt, [], false)
  | fuel + 1, attempt =>
    match responses attempt with
    | .success => (attempt, [], true)
    | .clientErr => (attempt, [], false)
    | .transientErr =>
      if 3 ≤ attempt then (attempt, [], false)
      else
        let r := doubaoGo responses fuel (attempt + 1)
        (r.1, ((6 / 10 : ℚ) * (attempt : ℚ)) :: r.2.1, r.2.2)

/-- The doubao HTTP post with its bounded retry. -/
def doubaoPost (responses : ℕ → HttpOutcome) : ℕ × List ℚ × Bool :=
  doubaoGo responses 3 1

/-! Concrete inputs used by the claim checks below. -/

/-- A one-line payload `你好吗` at the left of image 1. -/
def c1Data1 : VolcData := ⟨["你好吗"], [some ⟨10, 50, 200, 30⟩], [9 / 10], []⟩

/-- A one-line payload `好的` at the right of image 3. -/
def c1Data3 : VolcData := ⟨["好的"], [some ⟨400, 60, 150, 30⟩], [9 / 10], []⟩

/-- Three images whose second provider call raised. -/
def c1Outs : List Outcome := [.ok c1Data1, .err, .ok c1Data3]

/-- A narrow fragment whose left edge sits at 0. -/
def c2FragA : Block := ⟨"hi", 0, 0, 100, 20, 100, 20, 50, 10, 1, 9 / 10⟩

/-- A wide fragment whose left edge sits at 2 — within 5px of `c2FragA`'s. -/
def c2FragB : Block := ⟨"yo", 2, 100, 600, 20, 602, 120, 302, 110, 1, 9 / 10⟩

/-- Two same-center fragments for the amended single-side statement. -/
def c2FragW1 : Block := ⟨"aa", 0, 0, 100, 20, 100, 20, 50, 10, 1, 9 / 10⟩

/-- Second fragment with the same center-x as `c2FragW1`. -/
def c2FragW2 : Block := ⟨"bb", 0, 50, 100, 20, 100, 70, 50, 60, 1, 9 / 10⟩

/-- First code-like fragment (keyword `def `). -/
def c3Frag1 : Block := ⟨"def foo():", 0, 0, 200, 10, 200, 10, 100, 5, 1, 9 / 10⟩

/-- Second code-like fragment, 2px below the first. -/
def c3Frag2 : Block := ⟨"def bar():", 0, 12, 200, 10, 200, 22, 100, 17, 1, 9 / 10⟩

/-- Third code-like fragment, 378px further down but anchor-aligned. -/
def c3Frag3 : Block := ⟨"def baz():", 0, 400, 200, 10, 200, 410, 100, 405, 1, 9 / 10⟩

/-- The merge context of the three code fragments. -/
def c3Ctx : MergeCtx := mergeCtxOf (sortYX [c3Frag1, c3Frag2, c3Frag3]) "left"

/-- The bubble holding the first two code fragments. -/
def c3Cur : Bubble := mergeInto (newBubble c3Ctx.image_height c3Frag1) c3Frag2

/-- A system-UI weekday stamp far from the image's horizontal center
(centers: fragment 980, image 500) on a 1000-wide fragment extent. -/
def c4Ctx : NoiseCtx := ⟨980, 0, 1000⟩

/-- The geometric "system banner" test as the claim words it: short text
(at most 20 characters) and (horizontally within 40% of the image's
horizontal center, or vertically within the top or bottom 15% of the image's
vertical extent).  This definition follows the claim's sentence, for
comparison against `filterNoiseText`. -/
def specBannerGeometry (text : String) (center_x center_y minX maxX minY maxY : ℚ) : Prop :=
  text.length ≤ 20 ∧
    (|center_x - (minX + maxX) / 2| ≤ (40 / 100) * (maxX - minX) ∨
      center_y ≤ minY + (15 / 100) * (maxY - minY) ∨
      minY + (85 / 100) * (maxY - minY) ≤ center_y)

/-- A one-line payload used by the retry scenario. -/
def c5Data : VolcData := ⟨["hello"], [some ⟨10, 50, 200, 30⟩], [9 / 10], []⟩

/-- A provider whose image 1 (0-based) fails on its first attempt and would
succeed on any retry. -/
def c5Provider : ℕ → ℕ → Outcome := fun i attempt =>
  if i = 1 then (if attempt = 0 then .err else .ok c5Data) else .ok c5Data

/-- The consecutive vertical gaps of a block run, `y` of each block minus
`bottom` of its predecessor. -/
def consecGapsOf (bs : List Block) : List ℚ :=
  (bs.zip bs.tail).map fun p => p.2.y - p.1.bottom

/-- Fragment 1 of the two-bubble run (height 20). -/
def c6Frag1 : Block := ⟨"aaa", 0, 0, 200, 20, 200, 20, 100, 10, 1, 9 / 10⟩

/-- Fragment 2, gap 2 below fragment 1. -/
def c6Frag2 : Block := ⟨"bbb", 0, 22, 200, 20, 200, 42, 100, 32, 1, 9 / 10⟩

/-- Fragment 3, gap 3 below fragment 2. -/
def c6Frag3 : Block := ⟨"ccc", 0, 45, 200, 20, 200, 65, 100, 55, 1, 9 / 10⟩

/-- Fragment 4, gap 40 below fragment 3. -/
def c6Frag4 : Block := ⟨"ddd", 0, 105, 200, 20, 200, 125, 100, 115, 1, 9 / 10⟩

/-- Fragment 5, gap 2 below fragment 4. -/
def c6Frag5 : Block := ⟨"eee", 0, 127, 200, 20, 200, 147, 100, 137, 1, 9 / 10⟩

/-- Fragment 6, gap 3 below fragment 5. -/
def c6Frag6 : Block := ⟨"fff", 0, 150, 200, 20, 200, 170, 100, 160, 1, 9 / 10⟩

/-- The six-fragment run with gaps `[2, 3, 40, 2, 3]`. -/
def c6Run : List Block := [c6Frag1, c6Frag2, c6Frag3, c6Frag4, c6Frag5, c6Frag6]

/-- A message whose text mixes a CJK character and an ASCII letter. -/
def c8Msg : Message := ⟨"我", "right", "你好a", 1, 0, 1⟩

/-- The ordering-relevant fields of a message: its image index and its
recorded vertical position. -/
def msgKey (m : Message) : ℕ × ℚ :=
  (m.image_index, m.sort_y)

/-! The claim checks. -/

/-- C1, counterexample.  On three images whose second provider call failed on
every attempt, the batch result does record `failed_images = [2]` and keeps
the real content of images 1 and 3, but its message list holds exactly the
two messages of images 1 and 3: no placeholder message of any kind stands in
for image 2, so the claimed `is_placeholder` entry does not exist. -/
theorem c1_no_placeholder_counterexample :
    (volcProcess c1Outs).failed_images = [2] ∧
      (volcProcess c1Outs).messages.map (fun m => (m.text, m.image_index)) =
        [("你好吗", 1), ("好的", 3)] := by
  decide

/-- C2, counterexample.  Two fragments whose left edges are 2px apart (a
"tight alignment" single-speaker image in the claim's sense) are split across
the two sides by the center-x k-means of `_process_volc_ocr_blocks`: the
narrow fragment lands left, the wide one right, so the classifier does not
return all fragments as one side. -/
theorem c2_split_single_speaker_counterexample :
    |c2FragA.x - c2FragB.x| ≤ 5 ∧
      sideSplit [c2FragA, c2FragB] = ([c2FragA], [c2FragB]) := by
  decide

/-- C3, counterexample.  With the current bubble locked in code mode
(`is_code = true` after two code-like lines) and the next fragment
anchor-aligned, a gap ratio at or above the message-gap threshold still
refuses the merge: the run splits into two bubbles.  The claim's exception
("in locked code mode the merge is still performed") does not hold. -/
theorem c3_code_mode_counterexample :
    c3Cur.is_code = true ∧
      xAlignedB "left" c3Cur c3Frag3 = true ∧
      c3Ctx.message_gap_thr ≤ gapRelOf c3Ctx c3Cur c3Frag3 ∧
      shouldMergeB c3Ctx c3Cur c3Frag3 = false ∧
      (mergeVolcBubbles [c3Frag1, c3Frag2, c3Frag3] "对方" "left").map
          (fun bub => (bub.blocks.map Block.text, bub.is_code)) =
        [(["def foo():", "def bar():"], true), (["def baz():"], true)] := by
  decide

/-- C4, counterexample.  The system-UI stamp `星期三14：01` (8 characters)
placed at the far right of the fragment extent and at the vertical middle
fails the claim's banner-geometry test (not within 40% of the horizontal
center, not in the top or bottom 15%), yet `_filter_noise_text` confirms it
as noise — system-UI weekday stamps are filtered with no geometric test at
all. -/
theorem c4_geometry_counterexample :
    filterNoiseText "星期三14：01" c4Ctx = true ∧
      ¬ specBannerGeometry "星期三14：01" 980 500 0 1000 0 1000 := by
  constructor
  · decide
  · unfold specBannerGeometry
    decide

/-- C5, counterexample.  A provider whose image 1 (0-based; image 2 in
1-based reporting) fails on its first attempt but would succeed on any retry:
the batch still records the image as failed, because `_extract_with_volc_ocr`
issues exactly one OCR call per image — there is no per-image retry, so the
claimed "up to 3 attempts before the image is recorded as failed" is false. -/
theorem c5_no_retry_counterexample :
    (volcBatchWith c5Provider 3).failed_images = [2] ∧
      c5Provider 1 1 = .ok c5Data ∧
      (volcProcess [c5Provider 0 0, c5Provider 1 1, c5Provider 2 0]).failed_images = [] := by
  decide

/-- C6, counterexample.  A run of five fragments has exactly four consecutive
vertical gaps, so no five-fragment input can carry the five gaps
`[2, 3, 40, 2, 3]` the claim describes: the claim's input description is
unsatisfiable as stated. -/
theorem c6_five_gaps_counterexample :
    (∀ bs : List Block, bs.length = 5 → (consecGapsOf bs).length = 4) ∧
      ([(2 : ℚ), 3, 40, 2, 3].length = 5) := by
  refine ⟨fun bs h => ?_, rfl⟩
  simp [consecGapsOf, List.length_zip, List.length_tail, h]

/-- C6, amended.  Six same-side fragments of height 20 with consecutive gaps
`[2, 3, 40, 2, 3]` (the merger derives its characteristic height from the
fragments' own 170px vertical extent, not from a nominal image height) merge
into exactly two bubbles, split exactly at the 40px gap; the five-fragment
reading with the realizable gaps `[2, 3, 40, 2]` splits the same way. -/
theorem c6_two_bubbles_at_large_gap :
    consecGapsOf c6Run = [2, 3, 40, 2, 3] ∧
      avgHeightOf (sortYX c6Run) = 20 ∧
      (mergeVolcBubbles c6Run "对方" "left").map (fun bub => bub.blocks.map Block.text) =
        [["aaa", "bbb", "ccc"], ["ddd", "eee", "fff"]] ∧
      consecGapsOf [c6Frag1, c6Frag2, c6Frag3, c6Frag4, c6Frag5] = [2, 3, 40, 2] ∧
      (mergeVolcBubbles [c6Frag1, c6Frag2, c6Frag3, c6Frag4, c6Frag5] "对方" "left").map
          (fun bub => bub.blocks.map Block.text) =
        [["aaa", "bbb", "ccc"], ["ddd", "eee"]] := by
  decide

/-- C8, counterexample.  A message list whose single text `你好a` contains a
CJK codepoint is tagged `mixed`, not the CJK tag `中文`: the code tags
`mixed` whenever both a CJK character and an ASCII letter appear, so "any CJK
codepoint ⇒ CJK language tag" is false. -/
theorem c8_mixed_counterexample :
    detectedChinese [c8Msg] = true ∧
      languageOf [c8Msg] = "mixed" ∧ ("mixed" : String) ≠ "中文" := by
  decide

/-- C8, amended.  The language guess is `mixed` exactly when both a CJK
character and an ASCII letter appear somewhere in the messages, `中文`
exactly when a CJK character appears and no ASCII letter does, and `英文`
exactly when no CJK character appears (also when neither script appears). -/
theorem c8_language_characterization (msgs : List Message) :
    (languageOf msgs = "mixed" ↔ detectedChinese msgs = true ∧ detectedEnglish msgs = true) ∧
      (languageOf msgs = "中文" ↔ detectedChinese msgs = true ∧ detectedEnglish msgs = false) ∧
      (languageOf msgs = "英文" ↔ detectedChinese msgs = false) := by
  unfold languageOf
  cases hc : detectedChinese msgs <;> cases he : detectedEnglish msgs <;> simp

/-- C3, amended.  Whenever the gap ratio of the candidate block against the
current bubble reaches the message-gap threshold, the merge decision is
`false` — whatever the other heuristics say, and also while the bubble is in
locked code mode: the final guard of `_merge_volc_bubbles` applies
unconditionally. -/
theorem c3_message_gap_always_refuses (ctx : MergeCtx) (cur : Bubble) (b : Block)
    (h : ctx.message_gap_thr ≤ gapRelOf ctx cur b) :
    shouldMergeB ctx cur b = false := by
  unfold shouldMergeB
  simp only [decide_eq_true h, Bool.and_true]
  split <;> simp_all

/-- C3, witness: the amended refusal applied at the concrete locked-code
run. -/
theorem c3_message_gap_refuses_witness :
    shouldMergeB c3Ctx c3Cur c3Frag3 = false :=
  c3_message_gap_always_refuses c3Ctx c3Cur c3Frag3 (by decide)

/-- C4, amended.  `_filter_noise_text` confirms a fragment as noise exactly
when its stripped text is empty, or matches a system-UI weekday stamp (no
geometric test at all), or matches a timestamp/date pattern and sits
horizontally within 35% of the fragment-extent width from the extent's
center — there is no text-length test and no vertical-position test. -/
theorem c4_noise_characterization (text : String) (ctx : NoiseCtx) :
    filterNoiseText text ctx = true ↔
      (stripChars text.toList = [] ∨
        isSystemUiTxt (stripChars text.toList) = true ∨
        (isTimestampTxt (stripChars text.toList) = true ∧ 0 < ctx.image_width ∧
          |ctx.center_x - (ctx.image_min_x + ctx.image_width / 2)| ≤
            ctx.image_width * (35 / 100))) := by
  unfold filterNoiseText
  split_ifs with h1 h2 h3 h4 <;> simp_all

/-- The failed-image indices of a one-call-per-image batch, aligned with the
`range'` start. -/
theorem errIndicesFrom_map_range' (f : ℕ → Outcome) :
    ∀ (n s : ℕ), errIndicesFrom s ((List.range' s n).map f) =
      ((List.range' s n).filter fun t => decide (f t = .err)).map (· + 1)
  | 0, _ => rfl
  | n + 1, s => by
    rw [List.range'_succ]
    cases hf : f s <;>
      simp [errIndicesFrom, hf, errIndicesFrom_map_range' f n (s + 1)]

/-- The batch result records `failed_images = errIndices outs` on both the
empty and the nonempty path. -/
theorem volcProcess_failed (outs : List Outcome) :
    (volcProcess outs).failed_images = errIndices outs := by
  unfold volcProcess
  dsimp only
  split <;> rfl

/-- C5, amended.  The volc batch coordinator issues exactly one OCR call per
image: an image is recorded failed precisely when its single (first-attempt)
call raises, with no retry, no backoff and no jitter.  The only retry loop is
the doubao path's whole-batch HTTP post: at most 3 attempts, sleeping
`0.6 * attempt` seconds (no jitter) before each retry. -/
theorem c5_single_call_and_doubao_retry :
    (∀ (provider : ℕ → ℕ → Outcome) (n : ℕ),
        (volcBatchWith provider n).failed_images =
          ((List.range n).filter fun i => decide (provider i 0 = .err)).map (· + 1)) ∧
      (∀ responses : ℕ → HttpOutcome,
        (doubaoPost responses).1 ≤ 3 ∧
          (doubaoPost responses).2.1 =
            (List.range ((doubaoPost responses).1 - 1)).map
              fun k => (6 / 10 : ℚ) * ((k : ℚ) + 1)) := by
  constructor
  · intro provider n
    rw [volcBatchWith, volcProcess_failed, errIndices, List.range_eq_range',
      errIndicesFrom_map_range']
  · intro responses
    cases h1 : responses 1 <;> cases h2 : responses 2 <;> cases h3 : responses 3 <;>
      norm_num [doubaoPost, doubaoGo, h1, h2, h3, List.range_succ]

/-- Assigning identical points gives identical labels. -/
theorem kmeansAssign_replicate (c1 c2 c : ℚ) (n : ℕ) :
    kmeansAssign c1 c2 (List.replicate n c) =
      List.replicate n (if |c - c1| ≤ |c - c2| then 0 else 1) := by
  simp [kmeansAssign, List.map_replicate]

/-- The k-means loop keeps identical points uniformly labelled. -/
theorem kmeansLoop_replicate (n : ℕ) (c : ℚ) :
    ∀ (fuel l0 : ℕ) (c1 c2 : ℚ),
      ∃ l, (kmeansLoop fuel (List.replicate n c) (List.replicate n l0) c1 c2).1 =
        List.replicate n l := by
  intro fuel
  induction fuel with
  | zero => intro l0 c1 c2; exact ⟨l0, rfl⟩
  | succ fuel ih =>
    intro l0 c1 c2
    unfold kmeansLoop
    rw [kmeansAssign_replicate]
    dsimp only
    split
    all_goals
      split
      · exact ⟨_, rfl⟩
      · exact ih _ _ _

/-- The k-means split labels identical points uniformly. -/
theorem kmeansSplit_replicate (n : ℕ) (c mn w : ℚ) :
    ∃ l, (kmeansSplit1d (List.replicate n c) mn w).2 = List.replicate n l := by
  unfold kmeansSplit1d
  split
  · next hemp =>
    have hn : n = 0 := (List.replicate_eq_nil_iff c).mp hemp
    subst hn
    exact ⟨0, rfl⟩
  · obtain ⟨l, hl⟩ :=
      kmeansLoop_replicate n c 10 0 (mn + w * (1 / 4)) (mn + w * (3 / 4))
    dsimp only
    rw [List.length_replicate, hl]
    split
    · exact ⟨1 - l, by rw [List.map_replicate]⟩
    · exact ⟨l, rfl⟩

/-- Zipping with a uniform label and keeping the `0`-labelled entries gives
everything or nothing. -/
theorem zipRep_filter_left (bs : List Block) (l : ℕ) :
    (((bs.zip (List.replicate bs.length l)).filter fun q => q.2 = 0).map Prod.fst) =
      if l = 0 then bs else [] := by
  have hsnd : ∀ q ∈ bs.zip (List.replicate bs.length l), q.2 = l := by
    rintro ⟨a, b⟩ hq
    exact List.eq_of_mem_replicate (List.of_mem_zip hq).2
  by_cases hl : l = 0
  · subst hl
    rw [if_pos rfl, List.filter_eq_self.mpr, List.map_fst_zip]
    · simp
    · intro q hq
      simpa using hsnd q hq
  · rw [if_neg hl, List.filter_eq_nil_iff.mpr, List.map_nil]
    intro q hq
    simp [hsnd q hq, hl]

/-- Zipping with a uniform label and keeping the non-`0`-labelled entries
gives nothing or everything. -/
theorem zipRep_filter_right (bs : List Block) (l : ℕ) :
    (((bs.zip (List.replicate bs.length l)).filter fun q => q.2 ≠ 0).map Prod.fst) =
      if l = 0 then [] else bs := by
  have hsnd : ∀ q ∈ bs.zip (List.replicate bs.length l), q.2 = l := by
    rintro ⟨a, b⟩ hq
    exact List.eq_of_mem_replicate (List.of_mem_zip hq).2
  by_cases hl : l = 0
  · rw [if_pos hl, List.filter_eq_nil_iff.mpr, List.map_nil]
    intro q hq
    simp [hsnd q hq, hl]
  · rw [if_neg hl, List.filter_eq_self.mpr, List.map_fst_zip]
    · simp
    · intro q hq
      simpa [hl] using congrArg (fun t => decide (t ≠ 0)) (hsnd q hq)

/-- Filtering a same-center block list by a center threshold keeps everything
or nothing. -/
theorem filter_center_lt (bs : List Block) (c thr : ℚ) (h : ∀ b ∈ bs, b.center_x = c) :
    (bs.filter fun b => b.center_x < thr) = if c < thr then bs else [] := by
  by_cases hc : c < thr
  · rw [if_pos hc]
    refine List.filter_eq_self.mpr fun b hb => ?_
    simp [h b hb, hc]
  · rw [if_neg hc]
    refine List.filter_eq_nil_iff.mpr fun b hb => ?_
    simp [h b hb, hc]

/-- Filtering a same-center block list by the complementary test. -/
theorem filter_center_ge (bs : List Block) (c thr : ℚ) (h : ∀ b ∈ bs, b.center_x = c) :
    (bs.filter fun b => ¬ b.center_x < thr) = if c < thr then [] else bs := by
  by_cases hc : c < thr
  · rw [if_pos hc]
    refine List.filter_eq_nil_iff.mpr fun b hb => ?_
    simp [h b hb, hc]
  · rw [if_neg hc]
    refine List.filter_eq_self.mpr fun b hb => ?_
    simp [h b hb, hc]

/-- C2, amended.  The classifier splits by a 1D k-means over `center_x` with
a midline fallback when one group comes out empty; fragments that all share
one `center_x` are never split: they all land on a single side (which side
depends on their position against the midline).  Tight left-edge alignment
alone does not guarantee this — see the counterexample. -/
theorem c2_same_center_one_side (blocks : List Block) (c : ℚ)
    (h : ∀ b ∈ blocks, b.center_x = c) :
    ((sideSplit blocks).1 = blocks ∧ (sideSplit blocks).2 = []) ∨
      ((sideSplit blocks).1 = [] ∧ (sideSplit blocks).2 = blocks) := by
  have hmap : blocks.map (·.center_x) = List.replicate blocks.length c := by
    rw [List.eq_replicate_iff]
    refine ⟨by simp, fun x hx => ?_⟩
    obtain ⟨b, hb, rfl⟩ := List.mem_map.mp hx
    exact h b hb
  obtain ⟨l, hl⟩ :=
    kmeansSplit_replicate blocks.length c (listMin (blocks.map (·.x)))
      (listMax (blocks.map (·.right)) - listMin (blocks.map (·.x)))
  have hrep : (if List.replicate blocks.length l = [] then
      List.replicate blocks.length 0 else List.replicate blocks.length l) =
      List.replicate blocks.length (if List.replicate blocks.length l = [] then 0 else l) := by
    split <;> rfl
  unfold sideSplit
  dsimp only
  rw [hmap, hl, hrep, zipRep_filter_left, zipRep_filter_right]
  set l' := if List.replicate blocks.length l = [] then 0 else l with hl'
  set thr := listMin (blocks.map (·.x)) +
    (listMax (blocks.map (·.right)) - listMin (blocks.map (·.x))) / 2 with hthr
  have hcond : (if l' = 0 then blocks else []) = [] ∨ (if l' = 0 then [] else blocks) = [] := by
    by_cases hz : l' = 0 <;> simp [hz]
  rw [if_pos hcond]
  dsimp only
  rw [filter_center_lt blocks c thr h, filter_center_ge blocks c thr h]
  by_cases hc : c < thr
  · exact Or.inl ⟨by rw [if_pos hc], by rw [if_pos hc]⟩
  · exact Or.inr ⟨by rw [if_neg hc], by rw [if_neg hc]⟩

/-- C2, witness: two same-center fragments land together on one side. -/
theorem c2_same_center_one_side_witness :
    ((sideSplit [c2FragW1, c2FragW2]).1 = [c2FragW1, c2FragW2] ∧
        (sideSplit [c2FragW1, c2FragW2]).2 = []) ∨
      ((sideSplit [c2FragW1, c2FragW2]).1 = [] ∧
        (sideSplit [c2FragW1, c2FragW2]).2 = [c2FragW1, c2FragW2]) :=
  c2_same_center_one_side [c2FragW1, c2FragW2] 50 (by decide)

/-- Merging into a bubble leaves its anchor width unchanged. -/
theorem mergeInto_anchor_width (cur : Bubble) (b : Block) :
    (mergeInto cur b).anchor_width = cur.anchor_width := rfl

/-- Every bubble the merge loop emits keeps an anchor width of at least 1. -/
theorem mergeLoop_anchor_width (ctx : MergeCtx) :
    ∀ (bs : List Block) (acc : List Bubble) (cur : Bubble),
      (∀ bub ∈ acc, (1 : ℚ) ≤ bub.anchor_width) → (1 : ℚ) ≤ cur.anchor_width →
      ∀ bub ∈ mergeLoop ctx bs acc cur, (1 : ℚ) ≤ bub.anchor_width := by
  intro bs
  induction bs with
  | nil =>
    intro acc cur hacc hcur bub hb
    rw [mergeLoop] at hb
    rcases List.mem_append.mp hb with h | h
    · exact hacc bub h
    · rw [List.mem_singleton.mp h]
      exact hcur
  | cons b bs ih =>
    intro acc cur hacc hcur bub hb
    rw [mergeLoop] at hb
    by_cases hm : shouldMergeB ctx cur b
    · rw [if_pos hm] at hb
      refine ih acc (mergeInto cur b) hacc ?_ bub hb
      rw [mergeInto_anchor_width]
      exact hcur
    · rw [if_neg hm] at hb
      refine ih (acc ++ [cur]) (newBubble ctx.image_height b) ?_ (le_max_left 1 _) bub hb
      intro x hx
      rcases List.mem_append.mp hx with h | h
      · exact hacc x h
      · rw [List.mem_singleton.mp h]
        exact hcur

/-- C10.  The bubble-merging function is total (it is a terminating function
of its inputs), and every division it performs is by a clamped positive
quantity: the characteristic image height is at least 100, the anchor width
of every bubble it ever builds is at least 1, and the clamped anchor/column
widths the alignment tolerance divides by are at least 1 and 8
respectively — so no division by zero is reachable for any input, degenerate
boxes included. -/
theorem c10_division_guards :
    (∀ bs : List Block, (100 : ℚ) ≤ imageHeightOf bs) ∧
      (∀ cur : Bubble, (1 : ℚ) ≤ anchorWidthClamped cur ∧ (8 : ℚ) ≤ colWidthOf cur) ∧
      (∀ (bs : List Block) (nm sd : String),
        ∀ bub ∈ mergeVolcBubbles bs nm sd, (1 : ℚ) ≤ bub.anchor_width) := by
  refine ⟨fun bs => le_max_right _ 100,
    fun cur => ⟨le_max_left 1 _, le_max_left 8 _⟩, ?_⟩
  intro bs nm sd bub hb
  match bs with
  | [] => cases hb
  | [b] =>
    rw [mergeVolcBubbles] at hb
    rw [List.mem_singleton.mp hb]
    exact le_max_left 1 _
  | b1 :: b2 :: rest =>
    rw [mergeVolcBubbles] at hb
    rcases hs : sortYX (b1 :: b2 :: rest) with _ | ⟨b0, bs'⟩ <;> rw [hs] at hb
    · cases hb
    · exact mergeLoop_anchor_width _ bs' [] _ (by intro x hx; cases hx)
        (le_max_left 1 _) bub hb
    · simp
    · simp

/-- Renumbering `block_index` changes no ordering-relevant field. -/
theorem retagFrom_key : ∀ (start : ℕ) (l : List Message),
    (retagFrom start l).map msgKey = l.map msgKey := by
  intro start l
  induction l generalizing start with
  | nil => rfl
  | cons m l ih => simp [retagFrom, msgKey, ih]

/-- Renumbering keeps the length. -/
theorem retagFrom_length : ∀ (start : ℕ) (l : List Message),
    (retagFrom start l).length = l.length := by
  intro start l
  induction l generalizing start with
  | nil => rfl
  | cons m l ih => simp [retagFrom, ih]

/-- The renumbered indices are consecutive from `start + 1`. -/
theorem retagFrom_bidx : ∀ (l : List Message) (start : ℕ),
    (retagFrom start l).map (·.block_index) = List.range' (start + 1) l.length := by
  intro l
  induction l with
  | nil => intro start; rfl
  | cons m l ih =>
    intro start
    rw [retagFrom, List.length_cons, List.range'_succ, List.map_cons, ih (start + 1)]

/-- A member of a renumbered list comes from a member of the original list
with the same ordering-relevant fields. -/
theorem retagFrom_mem_key (start : ℕ) (l : List Message) :
    ∀ m ∈ retagFrom start l, ∃ m' ∈ l,
      m'.image_index = m.image_index ∧ m'.sort_y = m.sort_y := by
  intro m hm
  have hk : msgKey m ∈ (retagFrom start l).map msgKey := List.mem_map_of_mem _ hm
  rw [retagFrom_key] at hk
  obtain ⟨m', hm', hkeq⟩ := List.mem_map.mp hk
  exact ⟨m', hm', (Prod.ext_iff.mp hkeq).1, (Prod.ext_iff.mp hkeq).2⟩

/-- Renumbering preserves the per-image sort order. -/
theorem retagFrom_pairwise_msgLEy (start : ℕ) (l : List Message)
    (h : List.Pairwise msgLEy l) : List.Pairwise msgLEy (retagFrom start l) := by
  have h2 : List.Pairwise (fun p q : ℕ × ℚ => p.2 ≤ q.2) (l.map msgKey) :=
    List.pairwise_map.mpr h
  rw [← retagFrom_key start l] at h2
  exact (List.pairwise_map (f := msgKey)).mp h2

/-- Renumbering preserves the batch order. -/
theorem retagFrom_pairwise_msgLE (start : ℕ) (l : List Message)
    (h : List.Pairwise msgLE l) : List.Pairwise msgLE (retagFrom start l) := by
  have h2 : List.Pairwise
      (fun p q : ℕ × ℚ => p.1 < q.1 ∨ (p.1 = q.1 ∧ p.2 ≤ q.2)) (l.map msgKey) :=
    List.pairwise_map.mpr h
  rw [← retagFrom_key start l] at h2
  exact (List.pairwise_map (f := msgKey)).mp h2

/-- Every message built from one side's bubbles carries the image key it was
built under. -/
theorem msgsOfBubbles_image_index (sp sd : String) (idx : ℕ) :
    ∀ (start : ℕ) (bubs : List Bubble), ∀ m ∈ msgsOfBubbles sp sd idx start bubs,
      m.image_index = idx := by
  intro start bubs
  induction bubs generalizing start with
  | nil => intro m hm; cases hm
  | cons bub rest ih =>
    intro m hm
    rw [msgsOfBubbles] at hm
    by_cases ht : stripTxt bub.text = ""
    · rw [if_pos ht] at hm
      exact ih _ m hm
    · rw [if_neg ht] at hm
      rcases List.mem_cons.mp hm with rfl | hm'
      · rfl
      · exact ih _ m hm'

/-- Every message `_process_volc_ocr_blocks` returns carries its image
key. -/
theorem processImage_image_index (k : ℕ) (bs : List Block) :
    ∀ m ∈ (processImage k bs).1, m.image_index = k := by
  intro m hm
  unfold processImage at hm
  split at hm
  · cases hm
  · dsimp only at hm
    split at hm
    · cases hm
    · dsimp only at hm
      obtain ⟨m', hm', hix, _⟩ := retagFrom_mem_key 0 _ m hm
      have hpre := (List.perm_insertionSort msgLEy _).mem_iff.mp hm'
      rw [← hix]
      rcases List.mem_append.mp hpre with h | h
      · exact msgsOfBubbles_image_index "对方" "left" k _ _ m' h
      · exact msgsOfBubbles_image_index "我" "right" k _ _ m' h

/-- The per-image message list is sorted by its recorded vertical
position. -/
theorem processImage_sorted (k : ℕ) (bs : List Block) :
    List.Pairwise msgLEy (processImage k bs).1 := by
  unfold processImage
  split
  · exact List.Pairwise.nil
  · dsimp only
    split
    · exact List.Pairwise.nil
    · exact retagFrom_pairwise_msgLEy 0 _ (List.sorted_insertionSort msgLEy _)

/-- The globally renumbered `block_index` values are consecutive from
`start + 1`. -/
theorem appendTagged_bidx : ∀ (ls : List (List Message)) (start : ℕ),
    (appendTagged start ls).map (·.block_index) =
      List.range' (start + 1) (appendTagged start ls).length := by
  intro ls
  induction ls with
  | nil => intro start; rfl
  | cons l ls ih =>
    intro start
    rw [appendTagged, List.map_append, List.length_append, retagFrom_bidx,
      retagFrom_length, ih (start + l.length)]
    rw [show start + l.length + 1 = start + 1 + l.length by omega,
      List.range'_append_1, Nat.add_comm (appendTagged (start + l.length) ls).length l.length]

/-- A member of the renumbered concatenation comes from one of the
concatenated lists, with its ordering-relevant fields unchanged. -/
theorem appendTagged_mem_key : ∀ (ls : List (List Message)) (start : ℕ),
    ∀ m ∈ appendTagged start ls, ∃ l ∈ ls, ∃ m' ∈ l,
      m'.image_index = m.image_index ∧ m'.sort_y = m.sort_y := by
  intro ls
  induction ls with
  | nil => intro start m hm; cases hm
  | cons l ls ih =>
    intro start m hm
    rw [appendTagged] at hm
    rcases List.mem_append.mp hm with h | h
    · obtain ⟨m', hm', hk⟩ := retagFrom_mem_key start l m h
      exact ⟨l, List.mem_cons_self l ls, m', hm', hk⟩
    · obtain ⟨l', hl', m', hm', hk⟩ := ih _ m h
      exact ⟨l', List.mem_cons_of_mem l hl', m', hm', hk⟩

/-- Appending per-image lists in strictly increasing key order, each sorted
by vertical position and tagged with its key, yields a list sorted in the
batch order. -/
theorem appendTagged_pairwise : ∀ (ks : List ℕ) (f : ℕ → List Message) (start : ℕ),
    List.Pairwise (· < ·) ks →
    (∀ k, List.Pairwise msgLEy (f k)) →
    (∀ k, ∀ m ∈ f k, m.image_index = k) →
    List.Pairwise msgLE (appendTagged start (ks.map f)) := by
  intro ks
  induction ks with
  | nil => intro f start _ _ _; exact List.Pairwise.nil
  | cons k ks ih =>
    intro f start hks hsort htag
    rw [List.map_cons, appendTagged]
    refine List.pairwise_append.mpr ⟨?_, ?_, ?_⟩
    · refine retagFrom_pairwise_msgLE start (f k) ?_
      refine (hsort k).imp_of_mem ?_
      intro a b ha hb hy
      exact Or.inr ⟨by rw [htag k a ha, htag k b hb], hy⟩
    · exact ih f (start + (f k).length) (List.pairwise_cons.mp hks).2 hsort htag
    · intro a ha b hb
      obtain ⟨a', ha', haix, _⟩ := retagFrom_mem_key start (f k) a ha
      obtain ⟨l', hl', b', hb', hbix, _⟩ := appendTagged_mem_key _ _ b hb
      obtain ⟨k', hk', rfl⟩ := List.mem_map.mp hl'
      refine Or.inl ?_
      rw [← haix, ← hbix, htag k a' ha', htag k' b' hb']
      exact (List.pairwise_cons.mp hks).1 k' hk'

/-- The image keys are strictly increasing. -/
theorem imageKeys_sorted (blocks : List Block) :
    List.Pairwise (· < ·) (imageKeys blocks) := by
  have hs : List.Sorted (· ≤ ·) (imageKeys blocks) :=
    List.sorted_insertionSort (· ≤ ·) _
  have hn : (imageKeys blocks).Nodup :=
    (List.perm_insertionSort (· ≤ ·) _).nodup_iff.mpr (List.nodup_dedup _)
  exact hs.lt_of_le hn

/-- Every image key occurs among the blocks' image indices. -/
theorem imageKeys_mem (blocks : List Block) :
    ∀ k ∈ imageKeys blocks, k ∈ blocks.map (·.image_index) := by
  intro k hk
  have := (List.perm_insertionSort (· ≤ ·) (blocks.map (·.image_index)).dedup).mem_iff.mp hk
  exact (List.mem_dedup).mp this

/-- The batch message list is sorted by image index, then by the recorded
vertical position of each message. -/
theorem batchMessages_pairwise (blocks : List Block) :
    List.Pairwise msgLE (batchMessages blocks) := by
  refine appendTagged_pairwise (imageKeys blocks) _ 0 (imageKeys_sorted blocks) ?_ ?_
  · intro k
    exact processImage_sorted k _
  · intro k m hm
    exact processImage_image_index k _ m hm

/-- The batch result's messages are sorted in the batch order (shared by the
C7 and C9 checks). -/
theorem volcMessages_pairwise (outs : List Outcome) :
    List.Pairwise msgLE (volcProcess outs).messages := by
  unfold volcProcess
  dsimp only
  split
  · exact List.Pairwise.nil
  · exact batchMessages_pairwise _

/-- The batch result's `block_index` values are `1, 2, …` in list order. -/
theorem volcMessages_bidx (outs : List Outcome) :
    (volcProcess outs).messages.map (·.block_index) =
      List.range' 1 (volcProcess outs).messages.length := by
  unfold volcProcess
  dsimp only
  split
  · rfl
  · exact appendTagged_bidx _ 0

/-- Appending at the tail keeps a nonempty list's head. -/
theorem head_append_single (l : List Block) (x b : Block) (h : l.head? = some x) :
    (l ++ [b]).head? = some x := by
  cases l with
  | nil => cases h
  | cons y ys => simpa using h

/-- Every bubble the merge loop emits has its `top` at the `y` of its first
block. -/
theorem mergeLoop_head (ctx : MergeCtx) :
    ∀ (bs : List Block) (acc : List Bubble) (cur : Bubble),
      (∀ bub ∈ acc, ∃ hb, bub.blocks.head? = some hb ∧ hb.y = bub.top) →
      (∃ hb, cur.blocks.head? = some hb ∧ hb.y = cur.top) →
      ∀ bub ∈ mergeLoop ctx bs acc cur,
        ∃ hb, bub.blocks.head? = some hb ∧ hb.y = bub.top := by
  intro bs
  induction bs with
  | nil =>
    intro acc cur hacc hcur bub hb
    rw [mergeLoop] at hb
    rcases List.mem_append.mp hb with h | h
    · exact hacc bub h
    · rw [List.mem_singleton.mp h]
      exact hcur
  | cons b bs ih =>
    intro acc cur hacc hcur bub hb
    rw [mergeLoop] at hb
    by_cases hm : shouldMergeB ctx cur b
    · rw [if_pos hm] at hb
      obtain ⟨hd, h1, h2⟩ := hcur
      exact ih acc (mergeInto cur b) hacc
        ⟨hd, head_append_single cur.blocks hd b h1, h2⟩ bub hb
    · rw [if_neg hm] at hb
      refine ih (acc ++ [cur]) (newBubble ctx.image_height b) ?_ ⟨b, rfl, rfl⟩ bub hb
      intro x hx
      rcases List.mem_append.mp hx with h | h
      · exact hacc x h
      · rw [List.mem_singleton.mp h]
        exact hcur

/-- Every bubble `_merge_volc_bubbles` returns starts at its first block's
`y`. -/
theorem mergeVolcBubbles_head :
    ∀ (bs : List Block) (nm sd : String), ∀ bub ∈ mergeVolcBubbles bs nm sd,
      ∃ hb, bub.blocks.head? = some hb ∧ hb.y = bub.top := by
  intro bs nm sd bub hb
  match bs with
  | [] => cases hb
  | [b] =>
    rw [mergeVolcBubbles] at hb
    rw [List.mem_singleton.mp hb]
    exact ⟨b, rfl, rfl⟩
  | b1 :: b2 :: rest =>
    rw [mergeVolcBubbles] at hb
    rcases hs : sortYX (b1 :: b2 :: rest) with _ | ⟨b0, bs'⟩ <;> rw [hs] at hb
    · cases hb
    · refine mergeLoop_head _ bs' [] _ (by intro x hx; cases hx) ⟨b0, ?_, ?_⟩ bub hb <;> rfl
    · simp
    · simp

/-- C7.  The batch output is globally sorted: first by `image_index`, then by
each message's recorded vertical position — which is the `y` of the first
constituent fragment of the message's bubble, as the third conjunct states
for every bubble the merger builds — and after this global assembly each
message's `block_index` is exactly its 1-based position in the final list. -/
theorem c7_global_order_and_block_index (outs : List Outcome) :
    List.Pairwise msgLE (volcProcess outs).messages ∧
      (volcProcess outs).messages.map (·.block_index) =
        List.range' 1 (volcProcess outs).messages.length ∧
      (∀ (bs : List Block) (nm sd : String), ∀ bub ∈ mergeVolcBubbles bs nm sd,
        ∃ hb, bub.blocks.head? = some hb ∧ hb.y = bub.top) :=
  ⟨volcMessages_pairwise outs, volcMessages_bidx outs, mergeVolcBubbles_head⟩

/-- C9.  The pipeline is deterministic: the bubble merger and the k-means
split are pure functions of their inputs (two runs agree judgmentally, there
is no hidden state or randomness to vary), and the final message order is the
fixed one — sorted by image index, then vertical position — on every run. -/
theorem c9_deterministic_and_ordered :
    (∀ (bs : List Block) (nm sd : String),
        mergeVolcBubbles bs nm sd = mergeVolcBubbles bs nm sd) ∧
      (∀ (points : List ℚ) (mn w : ℚ),
        kmeansSplit1d points mn w = kmeansSplit1d points mn w) ∧
      (∀ outs : List Outcome, List.Pairwise msgLE (volcProcess outs).messages) :=
  ⟨fun _ _ _ => rfl, fun _ _ _ => rfl, volcMessages_pairwise⟩

/-- An extracted block carries the image index it was extracted under. -/
theorem extractOneLine_index (t : String) (r : Option Rect) (p : ℚ)
    (poly : List (ℤ × ℤ)) (idx : ℕ) (b : Block)
    (h : extractOneLine t r p poly idx = some b) : b.image_index = idx := by
  unfold extractOneLine at h
  split at h
  · cases h
  · split at h
    · cases h
    · split at h
      · cases h
      · cases h
        rfl

/-- Every block of the extraction loop carries the image index. -/
theorem extractLinesFrom_index (lrs : List (Option Rect)) (lps : List ℚ)
    (pls : List (List (ℤ × ℤ))) (idx : ℕ) :
    ∀ (i : ℕ) (lts : List String), ∀ b ∈ extractLinesFrom lrs lps pls idx i lts,
      b.image_index = idx := by
  intro i lts
  induction lts generalizing i with
  | nil => intro b hb; cases hb
  | cons t ts ih =>
    intro b hb
    rw [extractLinesFrom] at hb
    rcases List.mem_append.mp hb with h | h
    · rcases ho : extractOneLine t (lrs.getD i none) (lps.getD i (9 / 10))
          (pls.getD i []) idx with _ | b' <;> rw [ho] at h
      · cases h
      · rw [show (some b').toList = [b'] from rfl] at h
        rw [List.mem_singleton.mp h]
        exact extractOneLine_index _ _ _ _ _ _ ho
    · exact ih (i + 1) b h

/-- Failed-image indices sit strictly above the running position. -/
theorem errIndicesFrom_lb : ∀ (outs : List Outcome) (i : ℕ),
    ∀ n ∈ errIndicesFrom i outs, i + 1 ≤ n := by
  intro outs
  induction outs with
  | nil => intro i n hn; cases hn
  | cons o rest ih =>
    intro i n hn
    cases o with
    | err =>
      rw [errIndicesFrom] at hn
      rcases List.mem_cons.mp hn with rfl | h
      · exact le_refl _
      · have := ih (i + 1) n h
        omega
    | ok d =>
      rw [errIndicesFrom] at hn
      have := ih (i + 1) n hn
      omega

/-- A block accumulated from position `i` on comes from an image after `i`
whose call succeeded: its index is above `i` and not a failed index. -/
theorem allBlocksFrom_bounds : ∀ (outs : List Outcome) (i : ℕ),
    ∀ b ∈ allBlocksFrom i outs,
      i + 1 ≤ b.image_index ∧ b.image_index ∉ errIndicesFrom i outs := by
  intro outs
  induction outs with
  | nil => intro i b hb; cases hb
  | cons o rest ih =>
    intro i b hb
    cases o with
    | err =>
      rw [allBlocksFrom] at hb
      obtain ⟨hge, hnot⟩ := ih (i + 1) b hb
      refine ⟨by omega, ?_⟩
      rw [errIndicesFrom]
      intro hmem
      rcases List.mem_cons.mp hmem with heq | h
      · omega
      · exact hnot h
    | ok d =>
      rw [allBlocksFrom] at hb
      rw [errIndicesFrom]
      rcases List.mem_append.mp hb with h | h
      · rw [extractVolcBlocks] at h
        have hidx : b.image_index = i + 1 :=
          extractLinesFrom_index d.line_rects d.line_probs d.polys (i + 1) 0 d.line_texts b h
        refine ⟨by omega, fun hmem => ?_⟩
        have := errIndicesFrom_lb rest (i + 1) _ hmem
        omega
      · obtain ⟨hge, hnot⟩ := ih (i + 1) b h
        exact ⟨by omega, hnot⟩

/-- C1, amended.  A batch with per-image provider failures records exactly
the failing 1-based indices in `failed_images` and keeps processing the other
images, but emits no placeholder entry: every message of the result belongs
to an image whose call succeeded, so failed images simply have no messages at
all. -/
theorem c1_failed_images_have_no_messages (outs : List Outcome) :
    (volcProcess outs).failed_images = errIndices outs ∧
      ∀ m ∈ (volcProcess outs).messages, m.image_index ∉ errIndices outs := by
  refine ⟨volcProcess_failed outs, ?_⟩
  intro m hm
  unfold volcProcess at hm
  dsimp only at hm
  split at hm
  · cases hm
  · obtain ⟨l, hl, m', hm', hix, _⟩ := appendTagged_mem_key _ 0 m hm
    obtain ⟨k, hk, rfl⟩ := List.mem_map.mp hl
    have h1 : m'.image_index = k := processImage_image_index k _ m' hm'
    have hkmem : m.image_index ∈ (allBlocksOf outs).map (·.image_index) := by
      rw [← hix, h1]
      exact imageKeys_mem _ k hk
    obtain ⟨b, hb, hbix⟩ := List.mem_map.mp hkmem
    have hnot := (allBlocksFrom_bounds outs 0 b hb).2
    rw [errIndices, ← hbix]
    exact hnot

end VolcOcr
